import Mathlib

/-!
Shallow embedding of the ecs_exporter repository (Go): the `ecsmetadata`
client (`client.go`) and the `ecscollector` Prometheus collector.

Modelling conventions:
* Go `float64` values are modelled exactly as rationals (`ℚ`); every float
  computed by this program is derived from integer counters and divisions,
  and the claims concern exact values.  Go's `x / 0 = ±Inf/NaN` has no
  rational counterpart; in `ℚ`, `x / 0 = 0`.  No claim depends on the float
  value at a zero divisor, only on whether the sample is emitted.
* Go `uint64` fields are `Nat` (their values are below `2^64`); the one
  `uint64` subtraction in the source is modelled with its wrap-around.
* Go maps are modelled as association lists (`List (key × value)`); a `range`
  iteration over a map visits entries in an unspecified order, so functions
  that consume such an iteration take the visited sequence as input.
* `time.Parse` results are modelled as `Option Int` (nanoseconds on the Go
  time axis whose origin is the zero `Time`): `none` is a parse error, whose
  discarded-error zero value is `0` on that axis.
-/

namespace EcsExporter

/-- A Prometheus descriptor: metric name plus variable label names
(`prometheus.NewDesc(name, help, labelNames, nil)`). -/
structure Desc where
  name : String
  labelNames : List String
deriving DecidableEq, Repr

/-- One metric sample sent to the channel by
`prometheus.MustNewConstMetric(desc, type, value, labelValues...)`. -/
structure Sample where
  desc : Desc
  value : ℚ
  labelValues : List String
deriving DecidableEq, Repr

/-- Docker `CPUUsage` (the fields this program reads): `TotalUsage uint64`,
`PercpuUsage []uint64`. -/
structure CPUUsage where
  totalUsage : Nat
  percpuUsage : List Nat
deriving DecidableEq, Repr

/-- Docker `CPUStats` (the field this program reads): `CPUUsage`. -/
structure CPUStats where
  cpuUsage : CPUUsage
deriving DecidableEq, Repr

/-- Docker `MemoryStats` (the fields this program reads): `Usage uint64`,
`Limit uint64`, `Stats map[string]uint64`.  The map is an association list
with distinct keys; the program only looks entries up, never iterates it. -/
structure MemoryStats where
  usage : Nat
  limit : Nat
  stats : List (String × Nat)
deriving DecidableEq, Repr

/-- Per-interface network counters of `ContainerStats.Networks` in
`client.go`: eight `float64` json fields. -/
structure NetworkStats where
  rxBytes : ℚ
  rxPackets : ℚ
  rxErrors : ℚ
  rxDropped : ℚ
  txBytes : ℚ
  txPackets : ℚ
  txErrors : ℚ
  txDropped : ℚ
deriving DecidableEq, Repr

/-- The `ContainerStats` document of `client.go`, restricted to the fields the
collector reads.  `readNanos` / `prereadNanos` stand for the result of
`time.Parse(timeLayout, s.Read)` / `time.Parse(timeLayout, s.PreRead)` in the
collector: `some t` is a successful parse at `t` nanoseconds past Go's zero
`Time`, `none` a parse error (whose discarded zero `Time` value is `0` on the
same axis).  `networks` is `Networks map[string]...` given in the order one
`range` iteration visits it. -/
structure ContainerStats where
  readNanos : Option Int
  prereadNanos : Option Int
  cpuStats : CPUStats
  precpuStats : CPUStats
  memoryStats : MemoryStats
  networks : List (String × NetworkStats)
deriving DecidableEq, Repr

/-- A `Container` descriptor nested in `TaskMetadata` (the fields the
collector reads): `DockerID`, `Name`. -/
structure Container where
  dockerID : String
  name : String
deriving DecidableEq, Repr

/-- `TaskMetadataLimits` of `client.go`: `CPU float64`, `Memory float64`. -/
structure TaskMetadataLimits where
  cpu : ℚ
  memory : ℚ
deriving DecidableEq, Repr

/-- The `TaskMetadata` document of `client.go`, restricted to the fields the
collector reads.  `taskID` is the synthetic field filled in by `SetTaskID`. -/
structure TaskMetadata where
  cluster : String
  taskARN : String
  taskID : String
  family : String
  revision : String
  desiredStatus : String
  knownStatus : String
  limits : TaskMetadataLimits
  pullStartedAt : String
  pullStoppedAt : String
  availabilityZone : String
  launchType : String
  containers : List Container
deriving DecidableEq, Repr

/-- The `/task/stats` document: `map[string]*ContainerStats` keyed by Docker
container ID, as an association list with distinct keys.  `stats[id]` on a
missing key (Go's `nil`) is `List.lookup` returning `none`. -/
def TaskStats : Type := List (String × ContainerStats)

/-- The collector's label/descriptor catalog as built by `NewCollector`, plus
the stored `customLabelValues`.  (The source keeps the descriptors in
package-level variables; the model keeps the same values in a structure.) -/
structure Collector where
  metadataLabels : List String
  svcLabels : List String
  labels : List String
  cpuLabels : List String
  networkLabels : List String
  customLabelValues : List String
deriving DecidableEq, Repr

/-- `NewCollector(client, customLabels)`.  `customLabels` is a Go map; the
single `for key, value := range customLabels` loop builds `customLabelKeys`
and `customLabelValues` in lockstep, so the model takes the visited sequence
of key/value pairs (`customPairs`) as input — Go fixes no order for it — and
keys/values are its two projections.  The appends then mirror the source
line by line (slices have value semantics here). -/
def newCollector (customPairs : List (String × String)) : Collector :=
  let metadataLabels0 := ["cluster", "task_arn", "family", "revision",
    "desired_status", "known_status", "pull_started_at", "pull_stopped_at",
    "availability_zone", "launch_type", "task_id"]
  let svcLabels0 := ["task_arn", "task_id"]
  let labels0 := ["container", "task_id"]
  let customLabelKeys := customPairs.map Prod.fst
  let customLabelValues := customPairs.map Prod.snd
  let metadataLabels := metadataLabels0 ++ customLabelKeys
  let labels := labels0 ++ customLabelKeys
  let svcLabels := svcLabels0 ++ customLabelKeys
  let networkLabels := labels ++ ["device"]
  let cpuLabels := labels ++ ["cpu"]
  { metadataLabels := metadataLabels
    svcLabels := svcLabels
    labels := labels
    cpuLabels := cpuLabels
    networkLabels := networkLabels
    customLabelValues := customLabelValues }

/-- `metadataDesc`: `ecs_metadata_info` over `metadataLabels`. -/
def Collector.metadataDesc (c : Collector) : Desc :=
  ⟨"ecs_metadata_info", c.metadataLabels⟩

/-- `svcCpuLimitDesc`: `ecs_svc_cpu_limit` over `svcLabels`. -/
def Collector.svcCpuLimitDesc (c : Collector) : Desc :=
  ⟨"ecs_svc_cpu_limit", c.svcLabels⟩

/-- `svcMemLimitDesc`: `ecs_svc_memory_limit_bytes` over `svcLabels`. -/
def Collector.svcMemLimitDesc (c : Collector) : Desc :=
  ⟨"ecs_svc_memory_limit_bytes", c.svcLabels⟩

/-- `cpuTotalDesc`: `ecs_cpu_seconds_total` over `cpuLabels`. -/
def Collector.cpuTotalDesc (c : Collector) : Desc :=
  ⟨"ecs_cpu_seconds_total", c.cpuLabels⟩

/-- `cpuUtilizedDesc`: `ecs_cpu_utilized` over `labels`. -/
def Collector.cpuUtilizedDesc (c : Collector) : Desc :=
  ⟨"ecs_cpu_utilized", c.labels⟩

/-- `memoryUtilizedDesc`: `ecs_memory_utilized_mega_bytes` over `labels`. -/
def Collector.memoryUtilizedDesc (c : Collector) : Desc :=
  ⟨"ecs_memory_utilized_mega_bytes", c.labels⟩

/-- `memUsageDesc`: `ecs_memory_bytes` over `labels`. -/
def Collector.memUsageDesc (c : Collector) : Desc :=
  ⟨"ecs_memory_bytes", c.labels⟩

/-- `memLimitDesc`: `ecs_memory_limit_bytes` over `labels`. -/
def Collector.memLimitDesc (c : Collector) : Desc :=
  ⟨"ecs_memory_limit_bytes", c.labels⟩

/-- `memCacheUsageDesc`: `ecs_memory_cache_usage` over `labels`. -/
def Collector.memCacheUsageDesc (c : Collector) : Desc :=
  ⟨"ecs_memory_cache_usage", c.labels⟩

/-- `networkRxBytesDesc`: `ecs_network_receive_bytes_total`. -/
def Collector.networkRxBytesDesc (c : Collector) : Desc :=
  ⟨"ecs_network_receive_bytes_total", c.networkLabels⟩

/-- `networkRxPacketsDesc`: `ecs_network_receive_packets_total`. -/
def Collector.networkRxPacketsDesc (c : Collector) : Desc :=
  ⟨"ecs_network_receive_packets_total", c.networkLabels⟩

/-- `networkRxDroppedDesc`: `ecs_network_receive_dropped_total`. -/
def Collector.networkRxDroppedDesc (c : Collector) : Desc :=
  ⟨"ecs_network_receive_dropped_total", c.networkLabels⟩

/-- `networkRxErrorsDesc`: `ecs_network_receive_errors_total`. -/
def Collector.networkRxErrorsDesc (c : Collector) : Desc :=
  ⟨"ecs_network_receive_errors_total", c.networkLabels⟩

/-- `networkTxBytesDesc`: `ecs_network_transmit_bytes_total`. -/
def Collector.networkTxBytesDesc (c : Collector) : Desc :=
  ⟨"ecs_network_transmit_bytes_total", c.networkLabels⟩

/-- `networkTxPacketsDesc`: `ecs_network_transmit_packets_total`. -/
def Collector.networkTxPacketsDesc (c : Collector) : Desc :=
  ⟨"ecs_network_transmit_packets_total", c.networkLabels⟩

/-- `networkTxDroppedDesc`: `ecs_network_transmit_dropped_total`. -/
def Collector.networkTxDroppedDesc (c : Collector) : Desc :=
  ⟨"ecs_network_transmit_dropped_total", c.networkLabels⟩

/-- `networkTxErrorsDesc`: `ecs_network_transmit_errors_total`. -/
def Collector.networkTxErrorsDesc (c : Collector) : Desc :=
  ⟨"ecs_network_transmit_errors_total", c.networkLabels⟩

/-- `cpu_delta := s.CPUStats.CPUUsage.TotalUsage - s.PreCPUStats.CPUUsage.TotalUsage`:
`uint64` subtraction, i.e. wrap-around modulo `2^64` (exact for field values
below `2^64`, which all `uint64` values are). -/
def cpuDelta (s : ContainerStats) : Nat :=
  (s.cpuStats.cpuUsage.totalUsage + 2 ^ 64 - s.precpuStats.cpuUsage.totalUsage) % 2 ^ 64

/-- Go's `time.Time.Sub` clamps a difference that overflows `Duration`
(`int64` nanoseconds) to the maximal, respectively minimal, `Duration`. -/
def durClamp (d : Int) : Int :=
  max (-(2 ^ 63)) (min d (2 ^ 63 - 1))

/-- `parsedReadTime.Sub(parsedPreReadTime).Nanoseconds()` where each parse
error was discarded (`parsedReadTime, _ := time.Parse(...)`), leaving the
zero `Time`, i.e. `0` on the model's axis. -/
def elapsedNanos (s : ContainerStats) : Int :=
  durClamp (s.readNanos.getD 0 - s.prereadNanos.getD 0)

/-- `cpu_usage_in_vcpu := (float64(cpu_delta) / float64(time_diff_since_last_read)) * cpuIn1Vcpu`
with `cpuIn1Vcpu = 1024`. -/
def cpuUtilizedValue (s : ContainerStats) : ℚ :=
  (cpuDelta s : ℚ) / (elapsedNanos s : ℚ) * 1024

/-- The `for i, cpuUsage := range s.CPUStats.CPUUsage.PercpuUsage` loop:
one `ecs_cpu_seconds_total` sample per core, value `float64(cpuUsage) / 1.0e9`,
labels `append(labelVals, fmt.Sprintf("%d", i))`. -/
def percpuSamples (c : Collector) (labelVals : List String)
    (percpu : List Nat) : List Sample :=
  percpu.enum.map fun p =>
    ⟨c.cpuTotalDesc, (p.2 : ℚ) / 1000000000, labelVals ++ [toString p.1]⟩

/-- `val, ok := s.MemoryStats.Stats["cache"]`. -/
def cacheLookup (s : ContainerStats) : Option Nat :=
  s.memoryStats.stats.lookup "cache"

/-- The eight per-interface samples of one `range s.Networks` iteration step.
The source emits them by ranging over a literal `map[*prometheus.Desc]float64`
(unspecified order); the model lists them in the literal's order.  No claim
concerns the order inside this group. -/
def networkSamples (c : Collector) (labelVals : List String)
    (iface : String) (ns : NetworkStats) : List Sample :=
  let networkLabelVals := labelVals ++ [iface]
  [⟨c.networkRxBytesDesc, ns.rxBytes, networkLabelVals⟩,
   ⟨c.networkRxPacketsDesc, ns.rxPackets, networkLabelVals⟩,
   ⟨c.networkRxDroppedDesc, ns.rxDropped, networkLabelVals⟩,
   ⟨c.networkRxErrorsDesc, ns.rxErrors, networkLabelVals⟩,
   ⟨c.networkTxBytesDesc, ns.txBytes, networkLabelVals⟩,
   ⟨c.networkTxPacketsDesc, ns.txPackets, networkLabelVals⟩,
   ⟨c.networkTxDroppedDesc, ns.txDropped, networkLabelVals⟩,
   ⟨c.networkTxErrorsDesc, ns.txErrors, networkLabelVals⟩]

/-- The body of the `for _, container := range metadata.Containers` loop once
`s := stats[container.DockerID]` was found non-nil: the samples sent to the
channel for that container, in source order.  The memory usage/limit/cache
trio is emitted by ranging over a literal `map[*prometheus.Desc]float64`
(unspecified order); the model lists it in the literal's order — no claim
concerns the order inside that trio. -/
def containerSamples (c : Collector) (m : TaskMetadata) (ct : Container)
    (s : ContainerStats) : List Sample :=
  let labelVals := [ct.name, m.taskID] ++ c.customLabelValues
  let cacheValue : ℚ := ((cacheLookup s).getD 0 : Nat)
  [⟨c.cpuUtilizedDesc, cpuUtilizedValue s, labelVals⟩]
  ++ percpuSamples c labelVals s.cpuStats.cpuUsage.percpuUsage
  ++ (match cacheLookup s with
      | some v =>
        [⟨c.memoryUtilizedDesc,
          ((s.memoryStats.usage : ℚ) - (v : ℚ)) / (1024 * 1024), labelVals⟩]
      | none => [])
  ++ [⟨c.memUsageDesc, (s.memoryStats.usage : ℚ), labelVals⟩,
      ⟨c.memLimitDesc, (s.memoryStats.limit : ℚ), labelVals⟩,
      ⟨c.memCacheUsageDesc, cacheValue, labelVals⟩]
  ++ s.networks.flatMap (fun p => networkSamples c labelVals p.1 p.2)

/-- `metadataLableVals` as assembled in `Collect`. -/
def metadataLabelVals (c : Collector) (m : TaskMetadata) : List String :=
  [m.cluster, m.taskARN, m.family, m.revision, m.desiredStatus,
   m.knownStatus, m.pullStartedAt, m.pullStoppedAt, m.availabilityZone,
   m.launchType, m.taskID] ++ c.customLabelValues

/-- `svcLableVals` as assembled in `Collect`. -/
def svcLabelVals (c : Collector) (m : TaskMetadata) : List String :=
  [m.taskARN, m.taskID] ++ c.customLabelValues

/-- One iteration of the `for _, container := range metadata.Containers`
loop: `s := stats[container.DockerID]; if s == nil { ...; continue }` — a
container whose Docker ID has no stats entry contributes no samples. -/
def lookupSamples (c : Collector) (m : TaskMetadata) (stats : TaskStats)
    (ct : Container) : List Sample :=
  match stats.lookup ct.dockerID with
  | none => []
  | some s => containerSamples c m ct s

/-- `collector.Collect(ch)`: the sequence of samples sent to `ch`, in order.
`metadataResult` is the outcome of `c.client.RetrieveTaskMetadata` (`none` =
error: log and return with nothing emitted), `statsResult` the outcome of
`c.client.RetrieveTaskStats` (`none` = error: log and return after the three
metadata-derived samples; it is only consulted after metadata succeeded, as
in the source).  `Collect` returns normally in every case: the model is a
total function into a sample list, never an exception. -/
def collect (c : Collector) (metadataResult : Option TaskMetadata)
    (statsResult : Option TaskStats) : List Sample :=
  match metadataResult with
  | none => []
  | some m =>
    [⟨c.metadataDesc, 1, metadataLabelVals c m⟩,
     ⟨c.svcCpuLimitDesc, m.limits.cpu * 1024, svcLabelVals c m⟩,
     ⟨c.svcMemLimitDesc, m.limits.memory, svcLabelVals c m⟩]
    ++ match statsResult with
       | none => []
       | some stats => m.containers.flatMap (lookupSamples c m stats)

/-- Character-level model of Go's `strings.Split(s, "/")`: maximal (possibly
empty) runs between separators; `strings.Split("", "/") = [""]`. -/
def splitSlash : List Char → List (List Char)
  | [] => [[]]
  | ch :: rest =>
    if ch = '/' then
      [] :: splitSlash rest
    else
      match splitSlash rest with
      | [] => [[ch]]
      | seg :: segs => (ch :: seg) :: segs

/-- `func (t *TaskMetadata) SetTaskID()`:
`parts := strings.Split(t.TaskARN, "/"); t.TaskID = parts[len(parts)-1]`
(`splitSlash` never returns `[]`, so the `getLastD` default is never used). -/
def setTaskID (t : TaskMetadata) : TaskMetadata :=
  { t with taskID := ((splitSlash t.taskARN.toList).map List.asString).getLastD "" }

/-- `Client.RetrieveTaskMetadata`: `c.request` decodes into a stack-allocated
`out TaskMetadata` (`decoded` holds whatever `out` contains after the request,
the zero value or a partial decode when `requestErr` is set); the method then
unconditionally runs `out.SetTaskID()` and returns `&out, err` — the address
of a local, never nil, so the model returns the document by value paired with
the error. -/
def retrieveTaskMetadata (decoded : TaskMetadata) (requestErr : Option String) :
    TaskMetadata × Option String :=
  (setTaskID decoded, requestErr)

/-- Selects the samples of one metric family by its descriptor name. -/
def hasName (n : String) (smp : Sample) : Bool :=
  smp.desc.name == n

/-- Stated from the spec's words, for comparison with `setTaskID`: for an ARN
containing a slash, "the substring after the last `/`", i.e. the maximal
slash-free suffix of the character list. -/
def afterLastSlash (l : List Char) : List Char :=
  (l.reverse.takeWhile (fun ch => ch ≠ '/')).reverse

/-- A zero-valued `TaskMetadata` (Go's zero value), the base for concrete
test documents. -/
def zeroMeta : TaskMetadata :=
  { cluster := ""
    taskARN := ""
    taskID := ""
    family := ""
    revision := ""
    desiredStatus := ""
    knownStatus := ""
    limits := { cpu := 0, memory := 0 }
    pullStartedAt := ""
    pullStoppedAt := ""
    availabilityZone := ""
    launchType := ""
    containers := [] }

/-- A zero-valued `ContainerStats`, the base for concrete test documents. -/
def zeroStats : ContainerStats :=
  { readNanos := none
    prereadNanos := none
    cpuStats := { cpuUsage := { totalUsage := 0, percpuUsage := [] } }
    precpuStats := { cpuUsage := { totalUsage := 0, percpuUsage := [] } }
    memoryStats := { usage := 0, limit := 0, stats := [] }
    networks := [] }

/-- Concrete stats document for tests: one full vCPU of usage over one
second (1 s of total-usage delta between `preread` and `read`). -/
def oneVcpuStats : ContainerStats :=
  { zeroStats with
    readNanos := some 1000000000
    prereadNanos := some 0
    cpuStats := { cpuUsage := { totalUsage := 2000000000, percpuUsage := [] } }
    precpuStats := { cpuUsage := { totalUsage := 1000000000, percpuUsage := [] } } }

/-- Concrete metadata document for tests: task `t1` with one container. -/
def oneContainerMeta : TaskMetadata :=
  { zeroMeta with taskID := "t1", containers := [⟨"d1", "c1"⟩] }

/-- Concrete metadata document for tests: task `t1` with two containers. -/
def twoContainerMeta : TaskMetadata :=
  { zeroMeta with taskID := "t1", containers := [⟨"d1", "c1"⟩, ⟨"d2", "c2"⟩] }

/-- Converting a string to its character list and back is the identity. -/
theorem asString_toList (s : String) : s.toList.asString = s := rfl

/-- Go's `strings.Split` never returns an empty slice. -/
theorem splitSlash_ne_nil (l : List Char) : splitSlash l ≠ [] := by
  cases l with
  | nil => simp [splitSlash]
  | cons ch rest =>
    by_cases h : ch = '/'
    · simp [splitSlash, h]
    · simp only [splitSlash, if_neg h]
      cases splitSlash rest <;> simp

/-- Splitting a slash-free list yields that single segment. -/
theorem splitSlash_of_no_slash {l : List Char} (h : '/' ∉ l) :
    splitSlash l = [l] := by
  induction l with
  | nil => rfl
  | cons ch rest ih =>
    have hch : ¬ ch = '/' := fun e => h (by simp [e])
    have hrest : '/' ∉ rest := fun hm => h (List.mem_cons_of_mem _ hm)
    simp [splitSlash, hch, ih hrest]

/-- Splitting distributes over a separator occurrence. -/
theorem splitSlash_append_slash (xs ys : List Char) :
    splitSlash (xs ++ '/' :: ys) = splitSlash xs ++ splitSlash ys := by
  induction xs with
  | nil => simp [splitSlash]
  | cons ch rest ih =>
    by_cases h : ch = '/'
    · simp [splitSlash, h, ih]
    · rcases e : splitSlash rest with _ | ⟨seg, segs⟩
      · exact absurd e (splitSlash_ne_nil rest)
      · simp only [List.cons_append, splitSlash, if_neg h, ih, e,
          List.append_eq]

/-- Every list containing a slash splits at the last slash occurrence. -/
theorem exists_last_slash {l : List Char} (h : '/' ∈ l) :
    ∃ xs ys, l = xs ++ '/' :: ys ∧ '/' ∉ ys := by
  induction l with
  | nil => cases h
  | cons ch rest ih =>
    by_cases hr : '/' ∈ rest
    · obtain ⟨xs, ys, rfl, hys⟩ := ih hr
      exact ⟨ch :: xs, ys, rfl, hys⟩
    · have hch : ch = '/' := by
        rcases List.mem_cons.mp h with h1 | h2
        · exact h1.symm
        · exact absurd h2 hr
      exact ⟨[], rest, by simp [hch], hr⟩

/-- A `takeWhile` that accepts a whole prefix and rejects the following
element returns exactly that prefix. -/
theorem takeWhile_prefix_stop {α : Type} {p : α → Bool} (as : List α) (b : α)
    (bs : List α) (has : ∀ a ∈ as, p a) (hb : ¬ p b) :
    (as ++ b :: bs).takeWhile p = as := by
  induction as with
  | nil => simp [List.takeWhile_cons, hb]
  | cons a as ih =>
    have ha : p a := has a (List.mem_cons_self a as)
    simp [List.takeWhile_cons, ha,
      ih fun x hx => has x (List.mem_cons_of_mem _ hx)]

/-- With a slash-free tail, `afterLastSlash` returns exactly that tail. -/
theorem afterLastSlash_append {xs ys : List Char} (hys : '/' ∉ ys) :
    afterLastSlash (xs ++ '/' :: ys) = ys := by
  have hall : ∀ a ∈ ys.reverse, (fun ch => decide (ch ≠ '/')) a = true := by
    intro a ha
    simp only [decide_eq_true_eq]
    exact fun e => hys (e ▸ List.mem_reverse.mp ha)
  have htw := takeWhile_prefix_stop (p := fun ch => decide (ch ≠ '/'))
    ys.reverse '/' xs.reverse hall (by simp)
  simp only [afterLastSlash, List.reverse_append, List.reverse_cons]
  rw [List.append_assoc, List.singleton_append, htw, List.reverse_reverse]

/-- The last segment of the split: the suffix after the last slash when a
slash is present, the whole list otherwise. -/
theorem splitSlash_getLastD (l : List Char) :
    ('/' ∈ l → (splitSlash l).getLastD [] = afterLastSlash l)
  ∧ ('/' ∉ l → (splitSlash l).getLastD [] = l) := by
  constructor
  · intro h
    obtain ⟨xs, ys, rfl, hys⟩ := exists_last_slash h
    rw [splitSlash_append_slash, splitSlash_of_no_slash hys,
      afterLastSlash_append hys, List.getLastD_eq_getLast?,
      List.getLast?_concat]
    rfl
  · intro h
    rw [splitSlash_of_no_slash h]
    rfl

/-- Taking the last default-getted element commutes with mapping `asString`
over a nonempty list of char lists. -/
theorem getLastD_map_asString (A : List (List Char)) (hA : A ≠ []) :
    (A.map List.asString).getLastD "" = (A.getLastD []).asString := by
  induction A with
  | nil => exact absurd rfl hA
  | cons a A ih =>
    cases A with
    | nil => rfl
    | cons b B =>
      simpa [List.getLastD_cons] using ih (by simp)

/-- A list obtained by `flatMap` of option-matches is a `filterMap`. -/
theorem flatMap_match_eq_filterMap {α β : Type} (f : α → Option β) (l : List α) :
    (l.flatMap fun a => match f a with | none => [] | some b => [b])
      = l.filterMap f := by
  induction l with
  | nil => rfl
  | cons a l ih =>
    cases h : f a <;> simp [h, ih, List.filterMap_cons]

/-- Descriptor names are fixed at construction, whatever the label catalog. -/
@[simp] theorem metadataDesc_name (c : Collector) :
    c.metadataDesc.name = "ecs_metadata_info" := rfl

/-- Descriptor name of the service CPU-limit gauge. -/
@[simp] theorem svcCpuLimitDesc_name (c : Collector) :
    c.svcCpuLimitDesc.name = "ecs_svc_cpu_limit" := rfl

/-- Descriptor name of the service memory-limit gauge. -/
@[simp] theorem svcMemLimitDesc_name (c : Collector) :
    c.svcMemLimitDesc.name = "ecs_svc_memory_limit_bytes" := rfl

/-- Descriptor name of the per-core CPU counter. -/
@[simp] theorem cpuTotalDesc_name (c : Collector) :
    c.cpuTotalDesc.name = "ecs_cpu_seconds_total" := rfl

/-- Descriptor name of the CPU-utilization gauge. -/
@[simp] theorem cpuUtilizedDesc_name (c : Collector) :
    c.cpuUtilizedDesc.name = "ecs_cpu_utilized" := rfl

/-- Descriptor name of the memory-utilized gauge. -/
@[simp] theorem memoryUtilizedDesc_name (c : Collector) :
    c.memoryUtilizedDesc.name = "ecs_memory_utilized_mega_bytes" := rfl

/-- Descriptor name of the memory-usage gauge. -/
@[simp] theorem memUsageDesc_name (c : Collector) :
    c.memUsageDesc.name = "ecs_memory_bytes" := rfl

/-- Descriptor name of the memory-limit gauge. -/
@[simp] theorem memLimitDesc_name (c : Collector) :
    c.memLimitDesc.name = "ecs_memory_limit_bytes" := rfl

/-- Descriptor name of the memory-cache gauge. -/
@[simp] theorem memCacheUsageDesc_name (c : Collector) :
    c.memCacheUsageDesc.name = "ecs_memory_cache_usage" := rfl

/-- Descriptor name of the receive-bytes counter. -/
@[simp] theorem networkRxBytesDesc_name (c : Collector) :
    c.networkRxBytesDesc.name = "ecs_network_receive_bytes_total" := rfl

/-- Descriptor name of the receive-packets counter. -/
@[simp] theorem networkRxPacketsDesc_name (c : Collector) :
    c.networkRxPacketsDesc.name = "ecs_network_receive_packets_total" := rfl

/-- Descriptor name of the receive-dropped counter. -/
@[simp] theorem networkRxDroppedDesc_name (c : Collector) :
    c.networkRxDroppedDesc.name = "ecs_network_receive_dropped_total" := rfl

/-- Descriptor name of the receive-errors counter. -/
@[simp] theorem networkRxErrorsDesc_name (c : Collector) :
    c.networkRxErrorsDesc.name = "ecs_network_receive_errors_total" := rfl

/-- Descriptor name of the transmit-bytes counter. -/
@[simp] theorem networkTxBytesDesc_name (c : Collector) :
    c.networkTxBytesDesc.name = "ecs_network_transmit_bytes_total" := rfl

/-- Descriptor name of the transmit-packets counter. -/
@[simp] theorem networkTxPacketsDesc_name (c : Collector) :
    c.networkTxPacketsDesc.name = "ecs_network_transmit_packets_total" := rfl

/-- Descriptor name of the transmit-dropped counter. -/
@[simp] theorem networkTxDroppedDesc_name (c : Collector) :
    c.networkTxDroppedDesc.name = "ecs_network_transmit_dropped_total" := rfl

/-- Descriptor name of the transmit-errors counter. -/
@[simp] theorem networkTxErrorsDesc_name (c : Collector) :
    c.networkTxErrorsDesc.name = "ecs_network_transmit_errors_total" := rfl

/-- Unfolding lemma for `hasName` on a literal sample. -/
@[simp] theorem hasName_mk (n : String) (d : Desc) (v : ℚ) (lv : List String) :
    hasName n ⟨d, v, lv⟩ = (d.name == n) := rfl

/-- The successful-scrape output: the three metadata-derived samples followed
by the per-container chunks in metadata order. -/
theorem collect_some_eq (c : Collector) (m : TaskMetadata) (stats : TaskStats) :
    collect c (some m) (some stats)
      = [⟨c.metadataDesc, 1, metadataLabelVals c m⟩,
         ⟨c.svcCpuLimitDesc, m.limits.cpu * 1024, svcLabelVals c m⟩,
         ⟨c.svcMemLimitDesc, m.limits.memory, svcLabelVals c m⟩]
        ++ m.containers.flatMap (lookupSamples c m stats) := rfl

/-- Filtering the container chunks by a name and keeping at most one sample
per chunk is a `filterMap` over the containers. -/
theorem filter_flatMap_lookup (c : Collector) (m : TaskMetadata)
    (stats : TaskStats) (cts : List Container) (p : Sample → Bool)
    (g : Container → ContainerStats → Option Sample)
    (hchunk : ∀ ct s, (containerSamples c m ct s).filter p
      = match g ct s with | none => [] | some x => [x]) :
    (cts.flatMap (lookupSamples c m stats)).filter p
      = cts.filterMap fun ct => (stats.lookup ct.dockerID).bind (g ct) := by
  induction cts with
  | nil => rfl
  | cons ct cts ih =>
    rw [List.flatMap_cons, List.filter_append, ih, List.filterMap_cons]
    unfold lookupSamples
    cases h : stats.lookup ct.dockerID with
    | none => simp
    | some s =>
      rw [hchunk]
      cases hg : g ct s <;> simp [hg]

/-- A per-core chunk holds only `ecs_cpu_seconds_total` samples, so filtering
it by any other name leaves nothing. -/
theorem percpuSamples_filter_ne (c : Collector) (lv : List String)
    (l : List Nat) (n : String) (h : ("ecs_cpu_seconds_total" == n) = false) :
    (percpuSamples c lv l).filter (hasName n) = [] := by
  apply List.filter_eq_nil_iff.mpr
  intro a ha
  obtain ⟨pr, hpr, rfl⟩ := List.mem_map.mp ha
  simp [hasName, h]

/-- One container's chunk holds exactly one CPU-utilization sample. -/
theorem containerSamples_filter_cpu (c : Collector) (m : TaskMetadata)
    (ct : Container) (s : ContainerStats) :
    (containerSamples c m ct s).filter (hasName "ecs_cpu_utilized")
      = [⟨c.cpuUtilizedDesc, cpuUtilizedValue s,
          [ct.name, m.taskID] ++ c.customLabelValues⟩] := by
  cases hc : cacheLookup s <;>
    simp [containerSamples, hc, List.filter_append, List.filter_flatMap,
      percpuSamples_filter_ne, networkSamples]

/-- One container's chunk holds a memory-utilized sample exactly when the
stats breakdown has a `"cache"` entry. -/
theorem containerSamples_filter_memUtilized (c : Collector) (m : TaskMetadata)
    (ct : Container) (s : ContainerStats) :
    (containerSamples c m ct s).filter (hasName "ecs_memory_utilized_mega_bytes")
      = match cacheLookup s with
        | none => []
        | some v =>
          [⟨c.memoryUtilizedDesc,
            ((s.memoryStats.usage : ℚ) - (v : ℚ)) / (1024 * 1024),
            [ct.name, m.taskID] ++ c.customLabelValues⟩] := by
  cases hc : cacheLookup s <;>
    simp [containerSamples, hc, List.filter_append, List.filter_flatMap,
      percpuSamples_filter_ne, networkSamples]

/-- One container's chunk always holds exactly one memory-cache sample, whose
value defaults to zero without a `"cache"` entry. -/
theorem containerSamples_filter_memCache (c : Collector) (m : TaskMetadata)
    (ct : Container) (s : ContainerStats) :
    (containerSamples c m ct s).filter (hasName "ecs_memory_cache_usage")
      = [⟨c.memCacheUsageDesc, (((cacheLookup s).getD 0 : Nat) : ℚ),
          [ct.name, m.taskID] ++ c.customLabelValues⟩] := by
  cases hc : cacheLookup s <;>
    simp [containerSamples, hc, List.filter_append, List.filter_flatMap,
      percpuSamples_filter_ne, networkSamples]

end EcsExporter

namespace EcsExporter

/-- Equal strings have equal character lists, so an empty `asString` comes
only from the empty list. -/
theorem asString_eq_empty {l : List Char} (h : l.asString = "") : l = [] :=
  congrArg String.toList h

/-- C7: the task ID derived by `SetTaskID` is the substring of the ARN after
its last `/` when the ARN contains a `/`, and the whole ARN otherwise. -/
theorem setTaskID_after_last_slash (t : TaskMetadata) :
    ('/' ∈ t.taskARN.toList →
      (setTaskID t).taskID = (afterLastSlash t.taskARN.toList).asString)
  ∧ ('/' ∉ t.taskARN.toList → (setTaskID t).taskID = t.taskARN) := by
  have hne := splitSlash_ne_nil t.taskARN.toList
  constructor
  · intro h
    show ((splitSlash t.taskARN.toList).map List.asString).getLastD "" = _
    rw [getLastD_map_asString _ hne, (splitSlash_getLastD _).1 h]
  · intro h
    show ((splitSlash t.taskARN.toList).map List.asString).getLastD "" = _
    rw [getLastD_map_asString _ hne, (splitSlash_getLastD _).2 h, asString_toList]

/-- C7 witness: a real task ARN yields the segment after the last slash; a
slash-free ARN is returned whole. -/
theorem setTaskID_after_last_slash_witness :
    (setTaskID { zeroMeta with
        taskARN := "arn:aws:ecs:us-east-1:12345:task/cluster/abc123" }).taskID
      = "abc123"
  ∧ (setTaskID { zeroMeta with taskARN := "noslash" }).taskID = "noslash" := by
  constructor
  · have h := (setTaskID_after_last_slash { zeroMeta with
      taskARN := "arn:aws:ecs:us-east-1:12345:task/cluster/abc123" }).1 (by decide)
    rw [h]
    decide
  · exact (setTaskID_after_last_slash { zeroMeta with taskARN := "noslash" }).2
      (by decide)

/-- C8 counterexample: the ARN `"a/"` is non-empty, yet `SetTaskID` derives
the empty task ID from it (the last `/`-separated segment is empty). -/
theorem setTaskID_trailing_slash_empty :
    ({ zeroMeta with taskARN := "a/" } : TaskMetadata).taskARN ≠ ""
  ∧ (setTaskID { zeroMeta with taskARN := "a/" }).taskID = "" := by
  constructor
  · decide
  · rfl

/-- C8 amended: for every `TaskMetadata` whose ARN is non-empty and does not
end in `/`, the task ID produced by `SetTaskID` is non-empty. -/
theorem setTaskID_nonempty (t : TaskMetadata) (h1 : t.taskARN ≠ "")
    (h2 : t.taskARN.toList.getLast? ≠ some '/') :
    (setTaskID t).taskID ≠ "" := by
  by_cases h : '/' ∈ t.taskARN.toList
  · obtain ⟨xs, ys, heq, hys⟩ := exists_last_slash h
    have hys_ne : ys ≠ [] := by
      intro e
      apply h2
      rw [heq, e]
      exact List.getLast?_concat _
    have hts : (setTaskID t).taskID = (afterLastSlash t.taskARN.toList).asString := by
      show ((splitSlash t.taskARN.toList).map List.asString).getLastD "" = _
      rw [getLastD_map_asString _ (splitSlash_ne_nil _),
        (splitSlash_getLastD _).1 h]
    rw [hts, heq, afterLastSlash_append hys]
    exact fun e => hys_ne (asString_eq_empty e)
  · have hts : (setTaskID t).taskID = t.taskARN := by
      show ((splitSlash t.taskARN.toList).map List.asString).getLastD "" = _
      rw [getLastD_map_asString _ (splitSlash_ne_nil _),
        (splitSlash_getLastD _).2 h, asString_toList]
    rw [hts]
    exact h1

/-- C8 witness: the ARN `"cluster/abc"` is non-empty, does not end in a
slash, and yields the non-empty task ID. -/
theorem setTaskID_nonempty_witness :
    (setTaskID { zeroMeta with taskARN := "cluster/abc" }).taskID ≠ "" :=
  setTaskID_nonempty _ (by decide) (by decide)

/-- C3: when the metadata fetch fails, `Collect` emits zero samples; when
metadata succeeds but the stats fetch fails, exactly the three
metadata-derived samples (the `ecs_metadata_info` sample and the two
service-limit gauges) are emitted and no container-level samples are.  In
both cases `collect` is a total function returning a sample list — nothing
is raised past the collection boundary. -/
theorem collect_fetch_failure_samples (c : Collector) (m : TaskMetadata)
    (sr : Option TaskStats) :
    collect c none sr = []
  ∧ collect c (some m) none =
      [⟨c.metadataDesc, 1, metadataLabelVals c m⟩,
       ⟨c.svcCpuLimitDesc, m.limits.cpu * 1024, svcLabelVals c m⟩,
       ⟨c.svcMemLimitDesc, m.limits.memory, svcLabelVals c m⟩] :=
  ⟨rfl, rfl⟩

/-- C10: `RetrieveTaskMetadata` always hands the caller the decoded (possibly
zero-valued or partial) document with `SetTaskID` applied, paired with the
request error unchanged — never a nil result: for every decode outcome and
every error value, the returned document is `setTaskID decoded` and its task
ID is the last `/`-separated segment of its ARN. -/
theorem retrieveTaskMetadata_always_document (decoded : TaskMetadata)
    (requestErr : Option String) :
    retrieveTaskMetadata decoded requestErr = (setTaskID decoded, requestErr)
  ∧ (retrieveTaskMetadata decoded requestErr).1.taskID
      = ((splitSlash decoded.taskARN.toList).map List.asString).getLastD "" :=
  ⟨rfl, rfl⟩

/-- C6 counterexample: `NewCollector` ranges over the custom-label Go map,
whose iteration order is unspecified, so two constructions from the same
two-entry map may visit it in either order and then disagree on the label-name
ordering of every descriptor: the two sequences below are permutations of the
same map, yet yield different `metadataLabels`. -/
theorem newCollector_order_not_deterministic :
    List.Perm [("a", "1"), ("b", "2")] [("b", "2"), ("a", "1")]
  ∧ (newCollector [("a", "1"), ("b", "2")]).metadataLabels
      ≠ (newCollector [("b", "2"), ("a", "1")]).metadataLabels := by
  constructor
  · decide
  · decide

/-- C4: a container listed in metadata whose Docker ID has no stats entry
contributes zero samples and does not abort the scrape: the output of
`Collect` is exactly the output for the same metadata with that container
removed, the remaining containers being processed in metadata's given
order. -/
theorem collect_skips_container_without_stats (c : Collector) (m : TaskMetadata)
    (stats : TaskStats) (pre post : List Container) (ct : Container)
    (hsplit : m.containers = pre ++ ct :: post)
    (hmiss : stats.lookup ct.dockerID = none) :
    collect c (some m) (some stats)
      = collect c (some { m with containers := pre ++ post }) (some stats) := by
  simp only [collect, hsplit, List.flatMap_append, List.flatMap_cons,
    lookupSamples, hmiss, metadataLabelVals, svcLabelVals]
  rfl

/-- C4 witness: with containers `c1, c2` and stats only for `c2`, the scrape
equals the scrape of the metadata without `c1`. -/
theorem collect_skips_container_without_stats_witness :
    collect (newCollector []) (some twoContainerMeta) (some [("d2", zeroStats)])
      = collect (newCollector [])
          (some { twoContainerMeta with containers := [⟨"d2", "c2"⟩] })
          (some [("d2", zeroStats)]) := by
  have h := collect_skips_container_without_stats (newCollector [])
    twoContainerMeta [("d2", zeroStats)] [] [⟨"d2", "c2"⟩] ⟨"d1", "c1"⟩ rfl rfl
  simpa using h

end EcsExporter

namespace EcsExporter

/-- C1: for every container whose stats entry is present, the CPU-utilization
gauges emitted by `Collect` are exactly one per such container with value
`cpuUtilizedValue`, and under no `uint64` wrap-around (previous total at most
current, a genuine `uint64` current value) and an elapsed time within the
`Duration` range, that value is
`(current_total - previous_total) / (read - preread) * 1024`. -/
theorem collect_cpu_utilized (c : Collector) (m : TaskMetadata)
    (stats : TaskStats) :
    (collect c (some m) (some stats)).filter (hasName "ecs_cpu_utilized")
      = m.containers.filterMap (fun ct =>
          (stats.lookup ct.dockerID).bind fun s =>
            some ⟨c.cpuUtilizedDesc, cpuUtilizedValue s,
                  [ct.name, m.taskID] ++ c.customLabelValues⟩)
  ∧ ∀ (s : ContainerStats) (r p : Int),
      s.readNanos = some r → s.prereadNanos = some p →
      s.precpuStats.cpuUsage.totalUsage ≤ s.cpuStats.cpuUsage.totalUsage →
      s.cpuStats.cpuUsage.totalUsage < 2 ^ 64 →
      -(2 ^ 63) ≤ r - p → r - p ≤ 2 ^ 63 - 1 →
      cpuUtilizedValue s
        = ((s.cpuStats.cpuUsage.totalUsage : ℚ)
            - (s.precpuStats.cpuUsage.totalUsage : ℚ))
            / ((r : ℚ) - (p : ℚ)) * 1024 := by
  constructor
  · rw [collect_some_eq, List.filter_append,
      filter_flatMap_lookup c m stats m.containers (hasName "ecs_cpu_utilized")
        (fun ct s => some ⟨c.cpuUtilizedDesc, cpuUtilizedValue s,
          [ct.name, m.taskID] ++ c.customLabelValues⟩)
        (fun ct s => containerSamples_filter_cpu c m ct s)]
    simp
  · intro s r p hr hp hle hlt hlo hhi
    unfold cpuUtilizedValue cpuDelta elapsedNanos durClamp
    simp only [hr, hp, Option.getD_some]
    have h1 : (s.cpuStats.cpuUsage.totalUsage + 2 ^ 64
        - s.precpuStats.cpuUsage.totalUsage) % 2 ^ 64
        = s.cpuStats.cpuUsage.totalUsage - s.precpuStats.cpuUsage.totalUsage := by
      omega
    have h2 : max (-(2 ^ 63)) (min (r - p) (2 ^ 63 - 1)) = r - p := by
      omega
    rw [h1, h2, Nat.cast_sub hle]
    push_cast
    ring

/-- C1 witness: with one container whose stats show a total-usage delta of
one second over one second of elapsed time, the emitted CPU-utilization
value is exactly 1024 (one full vCPU). -/
theorem collect_cpu_utilized_witness :
    cpuUtilizedValue oneVcpuStats = 1024
  ∧ (collect (newCollector []) (some oneContainerMeta)
        (some [("d1", oneVcpuStats)])).filter (hasName "ecs_cpu_utilized")
      = [⟨(newCollector []).cpuUtilizedDesc, cpuUtilizedValue oneVcpuStats,
          ["c1", "t1"]⟩] := by
  have h := collect_cpu_utilized (newCollector []) oneContainerMeta
    [("d1", oneVcpuStats)]
  constructor
  · have h2 := h.2 oneVcpuStats 1000000000 0 rfl rfl
      (by norm_num [oneVcpuStats, zeroStats]) (by norm_num [oneVcpuStats, zeroStats])
      (by norm_num) (by norm_num)
    rw [h2]
    norm_num [oneVcpuStats, zeroStats]
  · rw [h.1]
    rfl

end EcsExporter

namespace EcsExporter

/-- C2: for every container with a stats entry, `Collect` emits an
`ecs_memory_utilized_mega_bytes` sample exactly when the memory stats
breakdown has a `"cache"` key — with value `(usage - cache) / (1024*1024)` —
while `ecs_memory_cache_usage` is emitted for every such container, carrying
the cache value, or 0 when the `"cache"` key is absent. -/
theorem collect_memory_cache_asymmetry (c : Collector) (m : TaskMetadata)
    (stats : TaskStats) :
    (collect c (some m) (some stats)).filter
        (hasName "ecs_memory_utilized_mega_bytes")
      = m.containers.filterMap (fun ct =>
          (stats.lookup ct.dockerID).bind fun s =>
            (cacheLookup s).bind fun v =>
              some ⟨c.memoryUtilizedDesc,
                ((s.memoryStats.usage : ℚ) - (v : ℚ)) / (1024 * 1024),
                [ct.name, m.taskID] ++ c.customLabelValues⟩)
  ∧ (collect c (some m) (some stats)).filter (hasName "ecs_memory_cache_usage")
      = m.containers.filterMap (fun ct =>
          (stats.lookup ct.dockerID).bind fun s =>
            some ⟨c.memCacheUsageDesc, (((cacheLookup s).getD 0 : Nat) : ℚ),
                  [ct.name, m.taskID] ++ c.customLabelValues⟩) := by
  constructor
  · rw [collect_some_eq, List.filter_append,
      filter_flatMap_lookup c m stats m.containers
        (hasName "ecs_memory_utilized_mega_bytes")
        (fun ct s => (cacheLookup s).bind fun v =>
          some ⟨c.memoryUtilizedDesc,
            ((s.memoryStats.usage : ℚ) - (v : ℚ)) / (1024 * 1024),
            [ct.name, m.taskID] ++ c.customLabelValues⟩)
        (fun ct s => by
          rw [containerSamples_filter_memUtilized]
          cases h : cacheLookup s <;> simp [h])]
    simp
  · rw [collect_some_eq, List.filter_append,
      filter_flatMap_lookup c m stats m.containers
        (hasName "ecs_memory_cache_usage")
        (fun ct s => some ⟨c.memCacheUsageDesc,
          (((cacheLookup s).getD 0 : Nat) : ℚ),
          [ct.name, m.taskID] ++ c.customLabelValues⟩)
        (fun ct s => containerSamples_filter_memCache c m ct s)]
    simp

/-- C9: the CPU-utilization sample of a container with a stats entry is
emitted whatever the outcome of the two timestamp parses — a parse error is
discarded — and the elapsed time fed unguarded into the rate formula is zero
when both parses fail and negative when only the `read` parse fails against
an already positive `preread` instant. -/
theorem collect_cpu_despite_parse_failure (c : Collector) (m : TaskMetadata)
    (stats : TaskStats) (ct : Container) (s : ContainerStats)
    (hct : ct ∈ m.containers) (hs : stats.lookup ct.dockerID = some s) :
    (⟨c.cpuUtilizedDesc, cpuUtilizedValue s,
        [ct.name, m.taskID] ++ c.customLabelValues⟩ : Sample)
      ∈ collect c (some m) (some stats)
  ∧ (s.readNanos = none → s.prereadNanos = none → elapsedNanos s = 0)
  ∧ (∀ q : Int, s.readNanos = none → s.prereadNanos = some q → 0 < q →
      elapsedNanos s < 0) := by
  refine ⟨?_, ?_, ?_⟩
  · rw [collect_some_eq]
    apply List.mem_append_right
    apply List.mem_flatMap.mpr
    refine ⟨ct, hct, ?_⟩
    unfold lookupSamples
    rw [hs]
    unfold containerSamples
    simp
  · intro h1 h2
    simp [elapsedNanos, durClamp, h1, h2]
  · intro q h1 h2 hq
    simp only [elapsedNanos, durClamp, h1, h2, Option.getD_some,
      Option.getD_none]
    omega

/-- C9 witness: a stats record whose two timestamps both fail to parse still
yields the CPU sample, with elapsed time zero. -/
theorem collect_cpu_despite_parse_failure_witness :
    (⟨(newCollector []).cpuUtilizedDesc, cpuUtilizedValue zeroStats,
        ["c1", "t1"]⟩ : Sample)
      ∈ collect (newCollector []) (some oneContainerMeta)
          (some [("d1", zeroStats)])
  ∧ elapsedNanos zeroStats = 0 := by
  have h := collect_cpu_despite_parse_failure (newCollector [])
    oneContainerMeta [("d1", zeroStats)] ⟨"d1", "c1"⟩ zeroStats
    (by simp [oneContainerMeta]) rfl
  exact ⟨h.1, h.2.1 rfl rfl⟩

end EcsExporter

namespace EcsExporter

/-- Every sample of one container's chunk pairs its label values with the
label-name list of its descriptor, index for index, provided the catalog's
per-container label lists extend the two fixed names by the custom-label
count. -/
theorem containerSamples_alignment (c : Collector) (m : TaskMetadata)
    (ct : Container) (s : ContainerStats) (smp : Sample)
    (hmem : smp ∈ containerSamples c m ct s)
    (hll : c.labels.length = 2 + c.customLabelValues.length)
    (hcl : c.cpuLabels.length = 3 + c.customLabelValues.length)
    (hnl : c.networkLabels.length = 3 + c.customLabelValues.length) :
    smp.labelValues.length = smp.desc.labelNames.length := by
  unfold containerSamples at hmem
  cases hcache : cacheLookup s <;>
    rw [hcache] at hmem <;>
    simp only [List.mem_append, List.mem_cons, List.not_mem_nil, or_false,
      false_or, percpuSamples, List.mem_map, networkSamples,
      List.mem_flatMap] at hmem
  · rcases hmem with ((rfl | ⟨pr, hpr, rfl⟩) | rfl | rfl | rfl) |
      ⟨pair, hp, hmem8⟩
    · simpa [Collector.cpuUtilizedDesc, hll] using by omega
    · simp only [Collector.cpuTotalDesc]
      simp [hcl]
      omega
    · simpa [Collector.memUsageDesc, hll] using by omega
    · simpa [Collector.memLimitDesc, hll] using by omega
    · simpa [Collector.memCacheUsageDesc, hll] using by omega
    · rcases hmem8 with rfl | rfl | rfl | rfl | rfl | rfl | rfl | rfl <;>
        · simp [Collector.networkRxBytesDesc, Collector.networkRxPacketsDesc,
            Collector.networkRxDroppedDesc, Collector.networkRxErrorsDesc,
            Collector.networkTxBytesDesc, Collector.networkTxPacketsDesc,
            Collector.networkTxDroppedDesc, Collector.networkTxErrorsDesc, hnl]
          omega
  · rcases hmem with (((rfl | ⟨pr, hpr, rfl⟩) | rfl) | rfl | rfl | rfl) |
      ⟨pair, hp, hmem8⟩
    · simpa [Collector.cpuUtilizedDesc, hll] using by omega
    · simp only [Collector.cpuTotalDesc]
      simp [hcl]
      omega
    · simpa [Collector.memoryUtilizedDesc, hll] using by omega
    · simpa [Collector.memUsageDesc, hll] using by omega
    · simpa [Collector.memLimitDesc, hll] using by omega
    · simpa [Collector.memCacheUsageDesc, hll] using by omega
    · rcases hmem8 with rfl | rfl | rfl | rfl | rfl | rfl | rfl | rfl <;>
        · simp [Collector.networkRxBytesDesc, Collector.networkRxPacketsDesc,
            Collector.networkRxDroppedDesc, Collector.networkRxErrorsDesc,
            Collector.networkTxBytesDesc, Collector.networkTxPacketsDesc,
            Collector.networkTxDroppedDesc, Collector.networkTxErrorsDesc, hnl]
          omega

end EcsExporter

namespace EcsExporter

/-- C5: every sample emitted by `Collect` — for any custom-label set of any
size and any fetch outcomes — carries exactly as many label values as its
descriptor has label names, with one value per name position by
construction. -/
theorem collect_label_alignment (customPairs : List (String × String))
    (mr : Option TaskMetadata) (sr : Option TaskStats) (smp : Sample)
    (hmem : smp ∈ collect (newCollector customPairs) mr sr) :
    smp.labelValues.length = smp.desc.labelNames.length := by
  have hK : (newCollector customPairs).customLabelValues.length
      = customPairs.length := by simp [newCollector]
  have hml : (newCollector customPairs).metadataLabels.length
      = 11 + customPairs.length := by simp [newCollector]; omega
  have hsl : (newCollector customPairs).svcLabels.length
      = 2 + customPairs.length := by simp [newCollector]; omega
  have hll : (newCollector customPairs).labels.length
      = 2 + (newCollector customPairs).customLabelValues.length := by
    simp [newCollector]; omega
  have hcl : (newCollector customPairs).cpuLabels.length
      = 3 + (newCollector customPairs).customLabelValues.length := by
    simp [newCollector]; omega
  have hnl : (newCollector customPairs).networkLabels.length
      = 3 + (newCollector customPairs).customLabelValues.length := by
    simp [newCollector]; omega
  cases mr with
  | none => simp [collect] at hmem
  | some m =>
    have hthree : ∀ x : Sample,
        x ∈ [⟨(newCollector customPairs).metadataDesc, 1,
              metadataLabelVals (newCollector customPairs) m⟩,
             ⟨(newCollector customPairs).svcCpuLimitDesc, m.limits.cpu * 1024,
              svcLabelVals (newCollector customPairs) m⟩,
             ⟨(newCollector customPairs).svcMemLimitDesc, m.limits.memory,
              svcLabelVals (newCollector customPairs) m⟩] →
        x.labelValues.length = x.desc.labelNames.length := by
      intro x hx
      simp only [List.mem_cons, List.not_mem_nil, or_false] at hx
      rcases hx with rfl | rfl | rfl
      · simp only [Collector.metadataDesc]
        simp [metadataLabelVals, hml, hK]
        omega
      · simp only [Collector.svcCpuLimitDesc]
        simp [svcLabelVals, hsl, hK]
        omega
      · simp only [Collector.svcMemLimitDesc]
        simp [svcLabelVals, hsl, hK]
        omega
    cases sr with
    | none =>
      simp only [collect, List.append_nil] at hmem
      exact hthree _ hmem
    | some stats =>
      rw [collect_some_eq] at hmem
      rcases List.mem_append.mp hmem with h | h
      · exact hthree _ h
      · obtain ⟨ct, hct, hsmp⟩ := List.mem_flatMap.mp h
        unfold lookupSamples at hsmp
        cases hlk : List.lookup ct.dockerID stats with
        | none =>
          rw [hlk] at hsmp
          simp at hsmp
        | some s =>
          rw [hlk] at hsmp
          exact containerSamples_alignment (newCollector customPairs) m ct s
            smp hsmp hll hcl hnl

/-- C5 witness: with one custom label, the metadata sample of a scrape whose
stats fetch failed carries 12 label values against its 12 label names. -/
theorem collect_label_alignment_witness :
    ((⟨(newCollector [("env", "prod")]).metadataDesc, 1,
        metadataLabelVals (newCollector [("env", "prod")]) zeroMeta⟩ : Sample)
      ∈ collect (newCollector [("env", "prod")]) (some zeroMeta) none)
  ∧ (metadataLabelVals (newCollector [("env", "prod")]) zeroMeta).length
      = (newCollector [("env", "prod")]).metadataDesc.labelNames.length := by
  have hm : ((⟨(newCollector [("env", "prod")]).metadataDesc, 1,
      metadataLabelVals (newCollector [("env", "prod")]) zeroMeta⟩ : Sample)
      ∈ collect (newCollector [("env", "prod")]) (some zeroMeta) none) := by
    simp [collect]
  exact ⟨hm,
    collect_label_alignment [("env", "prod")] (some zeroMeta) none _ hm⟩

end EcsExporter
